import Mathlib

/-!
Verification development for a 2D acoustic wave simulation engine
(CUDA solver `quake_cuda_cpml.cu`) and its Node.js relay (`server/index.js`).

The engine parses CLI options into a `Params` record, clamps the time step to
a CFL bound, builds a velocity model and a sponge (absorbing-layer) mask,
then runs a finite-difference time-stepping loop with artificial viscosity
and a tanh saturation, injecting a Ricker-wavelet point source each step.
It periodically reports energy on its text channel and writes raw float32
field frames to its binary channel.  The relay reassembles the binary byte
stream into frames of exactly `nx*ny*4` bytes and manages one engine process
per websocket session.

Machine floating-point arithmetic is embedded as exact arithmetic: parsed
configuration values as rationals, field values as real numbers.
-/

/- ===================== CLI parsing (engine `parse_args`) ===================== -/

/-- Resolved engine parameters with the defaults of the C++ `Params` struct. -/
structure Params where
  nx : Int := 512
  ny : Int := 512
  dx : ℚ := 5.0
  dt : ℚ := 6.0e-4
  steps : Int := 1000000000
  frames_every : Int := 10
  pml : Int := 20
  c0 : ℚ := 3000.0
  amp : ℚ := 0.05
  f0 : ℚ := 8.0
  sx : Int := -1
  sy : Int := -1
  cfl : ℚ := 0.45
  model : String := "homogeneous"
deriving DecidableEq

/-- Value of a list of decimal digit characters, most significant first. -/
def digitsVal (l : List Char) : ℕ :=
  l.foldl (fun acc c => 10 * acc + (c.toNat - 48)) 0

/-- Leading run of decimal digits of a character list together with the rest;
`none` when the list does not start with a digit.  Models the requirement of
`std::stoi` / `std::stof` that at least one digit be present, and their
behaviour of ignoring whatever follows the parsed prefix. -/
def leadingNat (l : List Char) : Option (ℕ × List Char) :=
  if (l.takeWhile Char.isDigit).isEmpty then none
  else some (digitsVal (l.takeWhile Char.isDigit), l.dropWhile Char.isDigit)

/-- Embedding of `std::stoi`: optional sign then at least one decimal digit;
trailing characters are ignored.  `none` models the `std::invalid_argument`
exception (which the engine never catches, so the process dies). -/
def stoi? (s : String) : Option Int :=
  match s.toList.dropWhile (· = ' ') with
  | '-' :: rest => (leadingNat rest).map (fun x => -(x.1 : Int))
  | '+' :: rest => (leadingNat rest).map (fun x => (x.1 : Int))
  | rest => (leadingNat rest).map (fun x => (x.1 : Int))

/-- Mantissa of a decimal float: digits, optionally a point and more digits;
at least one digit overall.  Returns its exact rational value and the rest. -/
def parseMantissa (l : List Char) : Option (ℚ × List Char) :=
  let ip := l.takeWhile Char.isDigit
  let rest := l.dropWhile Char.isDigit
  match rest with
  | '.' :: r2 =>
    let fp := r2.takeWhile Char.isDigit
    if ip.isEmpty ∧ fp.isEmpty then none
    else some ((digitsVal ip : ℚ) + (digitsVal fp : ℚ) / (10 ^ fp.length),
               r2.dropWhile Char.isDigit)
  | _ => if ip.isEmpty then none else some ((digitsVal ip : ℚ), rest)

/-- Optional signed decimal exponent value after an `e`/`E` marker. -/
def expVal (l : List Char) : Option Int :=
  match l with
  | '-' :: r => (leadingNat r).map (fun x => -(x.1 : Int))
  | '+' :: r => (leadingNat r).map (fun x => (x.1 : Int))
  | r => (leadingNat r).map (fun x => (x.1 : Int))

/-- Apply a trailing exponent part to a mantissa value; an invalid exponent
part is ignored, as `std::stof` parses the longest valid prefix. -/
def applyExp (m : ℚ) (l : List Char) : ℚ :=
  match l with
  | 'e' :: r => match expVal r with | some e => m * (10 : ℚ) ^ e | none => m
  | 'E' :: r => match expVal r with | some e => m * (10 : ℚ) ^ e | none => m
  | _ => m

/-- Embedding of `std::stof` over exact rationals: optional sign, decimal
mantissa, optional exponent; trailing characters are ignored; `none` models
the uncaught `std::invalid_argument` exception. -/
def stof? (s : String) : Option ℚ :=
  match s.toList.dropWhile (· = ' ') with
  | '-' :: rest => (parseMantissa rest).map (fun x => -(applyExp x.1 x.2))
  | '+' :: rest => (parseMantissa rest).map (fun x => applyExp x.1 x.2)
  | rest => (parseMantissa rest).map (fun x => applyExp x.1 x.2)

/-- How `parse_args` treats one recognized option name: as an integer option
(`std::stoi`), a floating option (`std::stof`), or the model name string. -/
inductive ArgKind where
  | intArg (set : Int → Params → Params)
  | floatArg (set : ℚ → Params → Params)
  | strArg (set : String → Params → Params)

/-- The option table of the C++ `parse_args` if-chain: each recognized name
with its parse type and the field it sets.  `--sponge` is the backward
compatible alias of `--pml` (both set `pml`).  `none` for unknown names. -/
def optKind (a : String) : Option ArgKind :=
  if a = "--nx" then some (.intArg (fun n p => { p with nx := n }))
  else if a = "--ny" then some (.intArg (fun n p => { p with ny := n }))
  else if a = "--dx" then some (.floatArg (fun q p => { p with dx := q }))
  else if a = "--dt" then some (.floatArg (fun q p => { p with dt := q }))
  else if a = "--steps" then some (.intArg (fun n p => { p with steps := n }))
  else if a = "--frames_every" then some (.intArg (fun n p => { p with frames_every := n }))
  else if a = "--pml" then some (.intArg (fun n p => { p with pml := n }))
  else if a = "--sponge" then some (.intArg (fun n p => { p with pml := n }))
  else if a = "--c0" then some (.floatArg (fun q p => { p with c0 := q }))
  else if a = "--amp" then some (.floatArg (fun q p => { p with amp := q }))
  else if a = "--f0" then some (.floatArg (fun q p => { p with f0 := q }))
  else if a = "--sx" then some (.intArg (fun n p => { p with sx := n }))
  else if a = "--sy" then some (.intArg (fun n p => { p with sy := n }))
  else if a = "--cfl" then some (.floatArg (fun q p => { p with cfl := q }))
  else if a = "--model" then some (.strArg (fun s p => { p with model := s }))
  else none

/-- Embedding of the engine's `parse_args` loop.  `Except.error` models a
fatal nonzero-status process exit with a diagnostic on the text channel:
`die` for an unknown option name or a missing final value, an uncaught
`std::invalid_argument` exception for an unparsable numeric value. -/
def parse_args : List String → Params → Except String Params
  | [], p => Except.ok p
  | a :: rest, p =>
    match optKind a with
    | none => Except.error ("Unknown arg: " ++ a)
    | some k =>
      match rest with
      | [] => Except.error ("Missing value")
      | v :: r =>
        match k with
        | .intArg set =>
          match stoi? v with
          | none => Except.error ("invalid argument: " ++ v)
          | some n => parse_args r (set n p)
        | .floatArg set =>
          match stof? v with
          | none => Except.error ("invalid argument: " ++ v)
          | some q => parse_args r (set q p)
        | .strArg set => parse_args r (set v p)

/-- Source-location defaulting at the end of `parse_args`: a negative `sx`
or `sy` defaults to the grid centre. -/
def defaultSrc (p : Params) : Params :=
  let p1 := if p.sx < 0 then { p with sx := p.nx / 2 } else p
  if p1.sy < 0 then { p1 with sy := p1.ny / 2 } else p1

/-- Full argument resolution: parse the option list starting from the default
parameters, then default the source location. -/
def parse_argv (args : List String) : Except String Params :=
  (parse_args args {}).map defaultSrc

/- ===================== CFL clamp (engine `main`) ===================== -/

/-- The time-step resolution of `main`: `dtmax = cfl*dx/(1.41421356*c0)`;
a requested `dt` above `dtmax` is clamped down to `dtmax`, otherwise kept. -/
def resolve_dt (p : Params) : ℚ :=
  let dtmax := p.cfl * p.dx / (1.41421356 * p.c0)
  if dtmax < p.dt then dtmax else p.dt

/- ===================== Sponge mask (`make_sponge`) ===================== -/

/-- Minimum distance of cell `(i, j)` to the four edges of an `nx × ny`
grid, as computed inside `make_sponge`. -/
def cellDist (nx ny : ℕ) (i j : ℕ) : Int :=
  min (min (i : Int) ((nx : Int) - 1 - (i : Int)))
      (min (j : Int) ((ny : Int) - 1 - (j : Int)))

/-- Embedding of `make_sponge`: mask value of cell `(i, j)`.  The mask array
starts at zero; for `w ≤ 0` it is returned unchanged; otherwise a cell at
edge distance `d < w` is set to `((w-d)/w)^4`. -/
def make_sponge (nx ny : ℕ) (w : Int) (i j : ℕ) : ℚ :=
  if w ≤ 0 then 0
  else
    let d := cellDist nx ny i j
    if d < w then (((w : ℚ) - (d : ℚ)) / (w : ℚ)) ^ 4 else 0

/- ===================== Velocity model (`fillCField`) ===================== -/

/-- Embedding of `fillCField`: the wave-speed value of cell `(i, j)` for a
named velocity model.  Any unrecognized model name falls back to the
homogeneous fill. -/
def fillCField (nx ny : ℕ) (c0 : ℝ) (model : String) (i j : ℕ) : ℝ :=
  if model = "homogeneous" then c0
  else if model = "two_layer" then
    if (ny / 2 : ℕ) ≤ j then c0 * 1.5 else c0
  else if model = "circle" then
    let cx : Int := (nx : Int) / 2
    let cy : Int := (ny : Int) / 2
    let r2 : ℚ := ((nx : ℚ) * 0.2) * ((nx : ℚ) * 0.2)
    let dxi : Int := (i : Int) - cx
    let dyi : Int := (j : Int) - cy
    if ((dxi * dxi + dyi * dyi : Int) : ℚ) < r2 then c0 * 0.7 else c0
  else c0

/- ===================== Time-stepping kernel (`step_kernel`) ===================== -/

/-- Embedding of the CUDA `step_kernel`: the value held by the target buffer
`u2` at flat index `k = j*nx + i` after the kernel has run, as a function of
the launched thread coordinates `(i, j)`.  Threads in the boundary ring of
width 1 (or outside the grid) return without writing, so there the old `u2`
value remains.  Interior threads store
`tanh(0.9 * un)` where `un` is the damped provisional value. -/
noncomputable def step_kernel (u0 u1 u2 c sponge : ℕ → ℝ) (nx ny : ℕ)
    (dt dx alpha : ℝ) (i j : ℕ) : ℝ :=
  if i = 0 ∨ j = 0 ∨ nx - 1 ≤ i ∨ ny - 1 ≤ j then u2 (j * nx + i)
  else
    let k := j * nx + i
    let uC := u1 k
    let lap := u1 (k - 1) + u1 (k + 1) + u1 (k - nx) + u1 (k + nx) - 4 * uC
    let dudt := (u1 k - u0 k) / dt
    let dudtL := (u1 (k - 1) - u0 (k - 1)) / dt
    let dudtR := (u1 (k + 1) - u0 (k + 1)) / dt
    let dudtD := (u1 (k - nx) - u0 (k - nx)) / dt
    let dudtU := (u1 (k + nx) - u0 (k + nx)) / dt
    let lap_dudt := dudtL + dudtR + dudtD + dudtU - 4 * dudt
    let coef := (c k * dt / dx) * (c k * dt / dx)
    let un := 2 * uC - u0 k + coef * lap - alpha * dt * lap_dudt
    let un2 := if 0 < sponge k then
        un * (if (1 : ℝ) - 0.03 * sponge k < 0 then 0 else (1 : ℝ) - 0.03 * sponge k)
      else un
    Real.tanh (0.9 * un2)

/- ===================== Source injection (`ricker`, `add_source`) ===================== -/

/-- Embedding of the `ricker` wavelet: `(1 - 2 a²) e^(−a²)` with
`a = π f0 (t − 1/f0)`. -/
noncomputable def ricker (t f0 : ℝ) : ℝ :=
  let a := Real.pi * f0 * (t - 1 / f0)
  (1 - 2 * (a * a)) * Real.exp (-(a * a))

/-- Embedding of the CUDA `add_source` kernel: the buffer after injection at
flat index `k`, whose grid coordinates are `(k % nx, k / nx)`.  A value
`val * exp(-0.5 (dx²+dy²) / 9)` is added to every cell within the 7×7 box
around `(sx, sy)` that lies strictly inside the boundary ring. -/
noncomputable def add_source (u : ℕ → ℝ) (nx ny : ℕ) (sx sy : Int) (val : ℝ)
    (k : ℕ) : ℝ :=
  let x : Int := ((k % nx : ℕ) : Int)
  let y : Int := ((k / nx : ℕ) : Int)
  if 0 < x ∧ 0 < y ∧ x < (nx : Int) - 1 ∧ y < (ny : Int) - 1 ∧
      |x - sx| ≤ 3 ∧ |y - sy| ≤ 3 then
    u k + val * Real.exp (-(0.5) * (((x - sx) * (x - sx) + (y - sy) * (y - sy) : Int) : ℝ) / 9)
  else u k

/- ===================== Main loop (`main`) ===================== -/

/-- The three rotating field buffers and the simulated time of the engine
main loop, indexed by flat cell index `k = j*nx + i`. -/
structure SimState where
  u0 : ℕ → ℝ
  u1 : ℕ → ℝ
  u2 : ℕ → ℝ
  t : ℝ

/-- One iteration of the engine main loop: run `step_kernel` over the grid
into `u2`, inject the source `amp * ricker(t, f0)` into `u2`, rotate the
buffers (`u0 ← u1`, `u1 ← u2`, `u2 ← old u0`), and advance `t` by `dt`. -/
noncomputable def engine_step (nx ny : ℕ) (dt dx alpha : ℝ) (c sp : ℕ → ℝ)
    (amp f0 : ℝ) (sx sy : Int) (s : SimState) : SimState :=
  let stepped : ℕ → ℝ := fun k =>
    step_kernel s.u0 s.u1 s.u2 c sp nx ny dt dx alpha (k % nx) (k / nx)
  let src := amp * ricker s.t f0
  let injected : ℕ → ℝ := add_source stepped nx ny sx sy src
  { u0 := s.u1, u1 := injected, u2 := s.u0, t := s.t + dt }

/-- The engine state after `n` loop iterations, starting from the three
zero-initialised buffers (`cudaMemset`) at time `t = 0`. -/
noncomputable def engine_run (nx ny : ℕ) (dt dx alpha : ℝ) (c sp : ℕ → ℝ)
    (amp f0 : ℝ) (sx sy : Int) : ℕ → SimState
  | 0 => ⟨fun _ => 0, fun _ => 0, fun _ => 0, 0⟩
  | n + 1 => engine_step nx ny dt dx alpha c sp amp f0 sx sy
      (engine_run nx ny dt dx alpha c sp amp f0 sx sy n)

/-- Embedding of `sum_energy_kernel`: the total it accumulates is the sum of
`u[k] * u[k]` over the `N` cells (the tree reduction sums these exact terms;
over the reals the reduction order is immaterial). -/
noncomputable def sum_energy (u : ℕ → ℝ) (N : ℕ) : ℝ :=
  ∑ k ∈ Finset.range N, u k * u k

/- ===================== Frame emission and relay reassembly ===================== -/

/-- Bytes written per frame by `fwrite(h_frame.data(), sizeof(float), N)`:
`sizeof(float) = 4` bytes for each of the `N = nx*ny` cells. -/
def engine_frame_bytes (nx ny : ℕ) : ℕ := 4 * (nx * ny)

/-- The relay's `ws.frameSize = nx * ny * 4`, set from the parsed header. -/
def relay_frame_size (nx ny : ℕ) : ℕ := nx * ny * 4

/-- The relay's drain loop: `while (buffer.length >= frameSize) { send the
first frameSize bytes; drop them }`.  Returns the forwarded frames in order
and the remaining buffer.  The fuel argument bounds the iteration count (the
buffer length suffices); the `0 < fs` guard records that the loop is only
reached with a positive frame size (the handler returns early on
`frameSize === 0`). -/
def drainFrames (fs : ℕ) : ℕ → List ℕ → List (List ℕ) × List ℕ
  | 0, buf => ([], buf)
  | fuel + 1, buf =>
    if 0 < fs ∧ fs ≤ buf.length then
      let rest := drainFrames fs fuel (buf.drop fs)
      (buf.take fs :: rest.1, rest.2)
    else ([], buf)

/-- The relay's stdout `data` handler: append the chunk to the buffered
bytes; if the frame size is still unknown (`0`), keep accumulating and
forward nothing; otherwise forward every complete frame. -/
def onData (fs : ℕ) (buf chunk : List ℕ) : List (List ℕ) × List ℕ :=
  if fs = 0 then ([], buf ++ chunk)
  else drainFrames fs (buf ++ chunk).length (buf ++ chunk)

/- ===================== Frame emission schedule ===================== -/

/-- The frame-emission test of the main loop: a frame is written on step `n`
iff `n % frames_every == 0`. -/
def emits_frame_at (frames_every n : ℕ) : Bool := n % frames_every == 0

/-- Number of frames written during a run whose loop completed `steps`
iterations (`n = 0, …, steps-1`). -/
def frames_emitted (frames_every steps : ℕ) : ℕ :=
  ((List.range steps).filter (fun n => emits_frame_at frames_every n)).length

/- ===================== Session / engine-process lifecycle ===================== -/

/-- Status of an engine OS process as observable by the relay.  `kill()`
sends a termination signal and returns immediately (`signaled`); the process
only reaches `exited` when its asynchronous `exit` event fires — the code's
separate `engineProc.on("exit", …)` handler is the witness in the source that
termination is not synchronous. -/
inductive ProcStatus where
  | notSpawned
  | running
  | signaled
  | exited
deriving DecidableEq

/-- State of one websocket session: the `ws.engineProc` handle (`tracked`,
holding a process id), the status of every process id, and a counter
supplying fresh process ids. -/
structure RelayState where
  tracked : Option ℕ
  status : ℕ → ProcStatus
  next : ℕ

/-- Embedding of `stopEngine(ws)`: if a process handle is tracked, call
`kill()` on it — which merely signals a running process — and clear the
handle.  (The buffer resets also performed there are modelled separately by
`onData`.) -/
def stopEngine (s : RelayState) : RelayState :=
  match s.tracked with
  | none => s
  | some p =>
    { tracked := none
      status := fun q =>
        if q = p then (if s.status p = .running then .signaled else s.status p)
        else s.status q
      next := s.next }

/-- The `spawn` call of `startEngine`: create a fresh process in `running`
state and track its handle. -/
def spawnEngine (s : RelayState) : RelayState :=
  { tracked := some s.next,
    status := fun q => if q = s.next then .running else s.status q,
    next := s.next + 1 }

/-- Embedding of `startEngine(ws, cfg)`: first `stopEngine(ws)`, then spawn
the new engine process. -/
def startEngine (s : RelayState) : RelayState := spawnEngine (stopEngine s)

/-- The asynchronous `exit` event of process `p`: a live process becomes
`exited`, and the handler clears `ws.engineProc` iff it still points at the
exiting process. -/
def procExitEv (p : ℕ) (s : RelayState) : RelayState :=
  if s.status p = .running ∨ s.status p = .signaled then
    { tracked := if s.tracked = some p then none else s.tracked,
      status := fun q => if q = p then .exited else s.status q,
      next := s.next }
  else s

/-- Events that drive one session's lifecycle. -/
inductive RelayEv where
  | start
  | stop
  | procExited (p : ℕ)

/-- Apply one lifecycle event. -/
def relayStep (s : RelayState) : RelayEv → RelayState
  | .start => startEngine s
  | .stop => stopEngine s
  | .procExited p => procExitEv p s

/-- Initial session state: no tracked handle, no processes spawned. -/
def relayInit : RelayState := ⟨none, fun _ => .notSpawned, 0⟩

/-- Session state reached after a list of lifecycle events. -/
def runRelay (evs : List RelayEv) : RelayState := evs.foldl relayStep relayInit

/-- A process is live when it has been spawned and has not yet exited —
i.e. it is running, or it has been signaled but the signal has not yet been
acted on. -/
def live (s : RelayState) (p : ℕ) : Prop :=
  s.status p = .running ∨ s.status p = .signaled

instance (s : RelayState) (p : ℕ) : Decidable (live s p) := by
  unfold live; infer_instance

/- ===================== Theorems ===================== -/

/-- Claim C3: for every grid `(nx, ny)` and layer thickness `w`, the sponge
builder assigns mask `0` to each cell whose minimum edge distance `d`
satisfies `d ≥ w`, and `((w − d)/w)^4` when `d < w`; for `w ≤ 0` every mask
is `0`; for `w > 0` the mask is `1` at distance `0` and strictly increases
as the distance decreases within the layer. -/
theorem make_sponge_spec (nx ny : ℕ) (w : Int) (i j : ℕ) :
    (w ≤ 0 → make_sponge nx ny w i j = 0)
    ∧ (w ≤ cellDist nx ny i j → make_sponge nx ny w i j = 0)
    ∧ (0 < w → cellDist nx ny i j < w →
        make_sponge nx ny w i j
          = (((w : ℚ) - ((cellDist nx ny i j : Int) : ℚ)) / (w : ℚ)) ^ 4)
    ∧ (0 < w → cellDist nx ny i j = 0 → make_sponge nx ny w i j = 1)
    ∧ (∀ i2 j2 : ℕ, 0 < w → 0 ≤ cellDist nx ny i j →
        cellDist nx ny i j < cellDist nx ny i2 j2 → cellDist nx ny i2 j2 < w →
        make_sponge nx ny w i2 j2 < make_sponge nx ny w i j) := by
  refine ⟨fun h => by simp [make_sponge, h], fun h => ?_, fun hw hd => ?_,
    fun hw hd => ?_, fun i2 j2 hw h0 h12 h2w => ?_⟩
  · by_cases hw : w ≤ 0
    · simp [make_sponge, hw]
    · simp only [make_sponge, hw, if_false]
      rw [if_neg (by omega)]
  · simp only [make_sponge, if_neg (by omega : ¬ w ≤ 0)]
    rw [if_pos hd]
  · simp only [make_sponge, if_neg (by omega : ¬ w ≤ 0)]
    rw [if_pos (by omega), hd]
    have hw' : ((w : ℚ)) ≠ 0 := by
      exact_mod_cast (by omega : w ≠ 0)
    simp [div_self hw']
  · have h1w : cellDist nx ny i j < w := lt_trans h12 h2w
    simp only [make_sponge, if_neg (by omega : ¬ w ≤ 0), if_pos h1w, if_pos h2w]
    have hwq : (0 : ℚ) < (w : ℚ) := by exact_mod_cast hw
    have hd2w : ((cellDist nx ny i2 j2 : Int) : ℚ) < (w : ℚ) := by exact_mod_cast h2w
    have h12q : ((cellDist nx ny i j : Int) : ℚ) < ((cellDist nx ny i2 j2 : Int) : ℚ) := by
      exact_mod_cast h12
    apply pow_lt_pow_left₀ ((div_lt_div_iff_of_pos_right hwq).mpr (by linarith)) ?_ (by norm_num)
    apply div_nonneg (by linarith) (le_of_lt hwq)

/-- Witness for C3 at the spec's own scenario, nx = 64, ny = 64, pml = 10:
the corner cell (distance 0) has mask 1, a cell 20 cells from every edge is
0, and the mask grows strictly toward the edge inside the layer. -/
theorem make_sponge_spec_witness :
    make_sponge 64 64 10 0 0 = 1 ∧ make_sponge 64 64 10 20 20 = 0
    ∧ make_sponge 64 64 10 3 32 < make_sponge 64 64 10 2 32 :=
  ⟨(make_sponge_spec 64 64 10 0 0).2.2.2.1 (by decide) (by decide),
   (make_sponge_spec 64 64 10 20 20).2.1 (by decide),
   (make_sponge_spec 64 64 10 2 32).2.2.2.2 3 32 (by decide) (by decide)
     (by decide) (by decide)⟩

/-- Claim C6: the velocity model builder invoked with an unrecognized model
name fills the field identically, cell for cell, to the "homogeneous" fill
(constant c0); no error is raised. -/
theorem fillCField_fallback (nx ny : ℕ) (c0 : ℝ) (model : String)
    (h1 : model ≠ "homogeneous") (h2 : model ≠ "two_layer")
    (h3 : model ≠ "circle") (i j : ℕ) :
    fillCField nx ny c0 model i j = fillCField nx ny c0 "homogeneous" i j := by
  simp [fillCField, h1, h2, h3]

/-- Witness for C6: the unknown model name "foo" gives the homogeneous
speed at a sample cell. -/
theorem fillCField_fallback_witness :
    fillCField 64 64 3000 "foo" 3 4 = fillCField 64 64 3000 "homogeneous" 3 4 :=
  fillCField_fallback 64 64 3000 "foo" (by decide) (by decide) (by decide) 3 4

/-- Counterexample to claim C8 as stated: the frame-emission test
`n % frames_every == 0` fires on the very first loop iteration `n = 0`, so
a run that completed a single step with frame interval 60 — fewer steps than
the interval — has already emitted one frame, not zero. -/
theorem frames_emitted_first_step :
    frames_emitted 60 1 = 1 ∧ (1 : ℕ) < 60 := by decide

/-- One more loop iteration adds a frame exactly when the step index hits
the emission test. -/
theorem frames_emitted_succ (fe s : ℕ) :
    frames_emitted fe (s + 1)
      = frames_emitted fe s + (if s % fe = 0 then 1 else 0) := by
  unfold frames_emitted
  rw [List.range_succ, List.filter_append, List.length_append]
  simp only [emits_frame_at, List.filter_cons, List.filter_nil]
  rcases Nat.decEq (s % fe) 0 with h | h
  · rw [if_neg (by simpa using h), if_neg h]
    rfl
  · rw [if_pos (by simpa using h), if_pos h]
    rfl

/-- Claim C8 (amended): frames are emitted at every step `n` with
`n % frames_every = 0`, including `n = 0`, so a run whose loop completed
`steps` iterations has emitted `⌈steps / frames_every⌉` frames; the count is
zero exactly when no iteration completed — a start immediately followed by a
stop yields zero frames only if the loop never ran. -/
theorem frames_emitted_count (fe steps : ℕ) (hfe : 0 < fe) :
    frames_emitted fe steps = (steps + fe - 1) / fe
    ∧ (frames_emitted fe steps = 0 ↔ steps = 0) := by
  have key : ∀ s, frames_emitted fe s = (s + fe - 1) / fe := by
    intro s
    induction s with
    | zero =>
      show frames_emitted fe 0 = (0 + fe - 1) / fe
      rw [Nat.div_eq_of_lt (by omega)]
      rfl
    | succ m ih =>
      rw [frames_emitted_succ, ih, show m + 1 + fe - 1 = (m + fe - 1) + 1 by omega,
        Nat.succ_div]
      have hiff : (fe ∣ m + fe - 1 + 1) ↔ m % fe = 0 := by
        rw [show m + fe - 1 + 1 = m + fe by omega, Nat.dvd_add_self_right,
          Nat.dvd_iff_mod_eq_zero]
      rcases Nat.decEq (m % fe) 0 with h | h
      · rw [if_neg h, if_neg (fun hd => h (hiff.mp hd))]
      · rw [if_pos h, if_pos (hiff.mpr h)]
  refine ⟨key steps, ?_⟩
  rw [key steps, Nat.div_eq_zero_iff (by omega)]
  omega

/-- Witness for C8's amended count at frame interval 60 after 121 completed
steps: frames at n = 0, 60, 120. -/
theorem frames_emitted_count_witness :
    frames_emitted 60 121 = (121 + 60 - 1) / 60
    ∧ (frames_emitted 60 121 = 0 ↔ (121 : ℕ) = 0) :=
  frames_emitted_count 60 121 (by decide)

/-- Claim C10: `--sponge` is parsed exactly like `--pml` (both set the `pml`
field), both at any point of the option list and at top level, and it is not
an unknown option. -/
theorem sponge_alias_of_pml (p : Params) (v : String) (rest : List String) :
    parse_args ("--sponge" :: v :: rest) p = parse_args ("--pml" :: v :: rest) p
    ∧ parse_args ["--sponge"] p = parse_args ["--pml"] p
    ∧ parse_argv ("--sponge" :: v :: rest) = parse_argv ("--pml" :: v :: rest) := by
  exact ⟨rfl, rfl, rfl⟩

/-- The option names recognized by `parse_args`. -/
def knownOpts : List String :=
  ["--nx", "--ny", "--dx", "--dt", "--steps", "--frames_every", "--pml",
   "--sponge", "--c0", "--amp", "--f0", "--sx", "--sy", "--cfl", "--model"]

/-- The recognized options whose value goes through `std::stoi`. -/
def intOpts : List String :=
  ["--nx", "--ny", "--steps", "--frames_every", "--pml", "--sponge",
   "--sx", "--sy"]

/-- The recognized options whose value goes through `std::stof`. -/
def floatOpts : List String := ["--dx", "--dt", "--c0", "--amp", "--f0", "--cfl"]

/-- A name outside the option table is unrecognized. -/
theorem optKind_eq_none_of_not_mem {a : String} (h : a ∉ knownOpts) :
    optKind a = none := by
  simp only [knownOpts, List.mem_cons, List.not_mem_nil, or_false, not_or] at h
  obtain ⟨h1, h2, h3, h4, h5, h6, h7, h8, h9, h10, h11, h12, h13, h14, h15⟩ := h
  simp [optKind, h1, h2, h3, h4, h5, h6, h7, h8, h9, h10, h11, h12, h13, h14, h15]

/-- Claim C9: an unrecognized option name, an option value that its numeric
parse rejects, or an option name appearing as the final argument with no
value, each make `parse_args` abort fatally (nonzero process exit with a
diagnostic on the text channel, before any simulation work). -/
theorem parse_args_fatal (p : Params) (rest : List String) :
    (∀ a, a ∉ knownOpts →
      parse_args (a :: rest) p = Except.error ("Unknown arg: " ++ a))
    ∧ (∀ a, a ∈ knownOpts → parse_args [a] p = Except.error ("Missing value"))
    ∧ (∀ a v r, a ∈ intOpts → stoi? v = none →
      parse_args (a :: v :: r) p = Except.error ("invalid argument: " ++ v))
    ∧ (∀ a v r, a ∈ floatOpts → stof? v = none →
      parse_args (a :: v :: r) p = Except.error ("invalid argument: " ++ v)) := by
  refine ⟨fun a ha => ?_, fun a ha => ?_, fun a v r ha hv => ?_, fun a v r ha hv => ?_⟩
  · simp [parse_args, optKind_eq_none_of_not_mem ha]
  · fin_cases ha <;> rfl
  · fin_cases ha <;> simp [parse_args, optKind, hv]
  · fin_cases ha <;> simp [parse_args, optKind, hv]

/-- Witness for C9: an unknown option, a known option missing its value,
an unparsable integer value and an unparsable floating value each give the
fatal parse error. -/
theorem parse_args_fatal_witness :
    parse_args ["--bogus"] {} = Except.error ("Unknown arg: --bogus")
    ∧ parse_args ["--nx"] {} = Except.error ("Missing value")
    ∧ parse_args ["--nx", "abc"] {} = Except.error ("invalid argument: abc")
    ∧ parse_args ["--dt", "xyz"] {} = Except.error ("invalid argument: xyz") :=
  ⟨(parse_args_fatal {} []).1 "--bogus" (by decide),
   (parse_args_fatal {} []).2.1 "--nx" (by decide),
   (parse_args_fatal {} []).2.2.1 "--nx" "abc" [] (by decide) (by decide),
   (parse_args_fatal {} []).2.2.2 "--dt" "xyz" [] (by decide) (by decide)⟩

/-- Claim C2 (amended): the engine computes its stability ceiling with the
float literal `1.41421356` in place of `√2`; against that ceiling
`cfl·dx/(1.41421356·c0)` the resolved time step is clamped down to exactly
the ceiling when the request exceeds it, is kept unchanged otherwise, and so
never exceeds the ceiling. -/
theorem resolve_dt_clamp (p : Params) :
    resolve_dt p ≤ p.cfl * p.dx / (1.41421356 * p.c0)
    ∧ (p.cfl * p.dx / (1.41421356 * p.c0) < p.dt →
        resolve_dt p = p.cfl * p.dx / (1.41421356 * p.c0))
    ∧ (p.dt ≤ p.cfl * p.dx / (1.41421356 * p.c0) → resolve_dt p = p.dt) := by
  simp only [resolve_dt]
  split_ifs with h
  · exact ⟨le_refl _, fun _ => rfl, fun h2 => absurd h (not_lt.mpr h2)⟩
  · exact ⟨not_lt.mp h, fun h2 => absurd h2 h, fun _ => rfl⟩

/-- Witness for C2's amended clamp: the default configuration requests
`dt = 6·10⁻⁴`, above its ceiling `0.45·5/(1.41421356·3000)`, and is clamped
to exactly the ceiling. -/
theorem resolve_dt_clamp_witness :
    resolve_dt {} = ({} : Params).cfl * ({} : Params).dx / (1.41421356 * ({} : Params).c0) :=
  (resolve_dt_clamp {}).2.1
    (by show (0.45 : ℚ) * 5.0 / (1.41421356 * 3000.0) < 6.0e-4; norm_num)

/-- Parameters exhibiting the gap between the spec bound `√2` and the
engine's literal `1.41421356`: requested `dt = 1` equals the engine ceiling
`1.41421356/1.41421356` and is kept, yet exceeds `cfl·dx/(√2·c0)`. -/
def cfgSqrt2Gap : Params := { cfl := 1.41421356, dx := 1, c0 := 1, dt := 1 }

/-- Counterexample to claim C2 as stated: for `cfgSqrt2Gap` the resolved
time step is 1, strictly above the claimed bound `cfl·dx/(√2·c0)`, because
`1.41421356 < √2`. -/
theorem resolve_dt_sqrt2_counterexample :
    ¬ ((resolve_dt cfgSqrt2Gap : ℝ) ≤
        (cfgSqrt2Gap.cfl : ℝ) * (cfgSqrt2Gap.dx : ℝ) /
          (Real.sqrt 2 * (cfgSqrt2Gap.c0 : ℝ))) := by
  have hs : (1.41421356 : ℝ) < Real.sqrt 2 :=
    (Real.lt_sqrt (by norm_num)).mpr (by norm_num)
  have h0 : (0 : ℝ) < Real.sqrt 2 := lt_trans (by norm_num) hs
  have hr : resolve_dt cfgSqrt2Gap = 1 := by
    show (if (1.41421356 : ℚ) * 1 / (1.41421356 * 1) < 1 then
        (1.41421356 : ℚ) * 1 / (1.41421356 * 1) else 1) = 1
    norm_num
  rw [hr, show cfgSqrt2Gap.cfl = 1.41421356 from rfl,
    show cfgSqrt2Gap.dx = 1 from rfl, show cfgSqrt2Gap.c0 = 1 from rfl]
  push_cast
  rw [mul_one, mul_one]
  intro hle
  have h2 : Real.sqrt 2 ≤ 1.41421356 := by
    have := (le_div_iff₀ h0).mp hle
    linarith
  linarith

/-- Every frame forwarded by the drain loop has exactly the frame size. -/
theorem drainFrames_sizes (fs : ℕ) :
    ∀ (fuel : ℕ) (buf : List ℕ), ∀ f ∈ (drainFrames fs fuel buf).1, f.length = fs := by
  intro fuel
  induction fuel with
  | zero => intro buf f hf; simp [drainFrames] at hf
  | succ n ih =>
    intro buf f hf
    by_cases h : 0 < fs ∧ fs ≤ buf.length
    · rw [drainFrames, if_pos h] at hf
      rcases List.mem_cons.mp hf with hf | hf
      · rw [hf, List.length_take]
        omega
      · exact ih _ f hf
    · rw [drainFrames, if_neg h] at hf
      simp at hf

/-- The drain loop forwards the buffered bytes intact: the concatenation of
the forwarded frames followed by the remainder is the original buffer. -/
theorem drainFrames_join (fs : ℕ) :
    ∀ (fuel : ℕ) (buf : List ℕ),
      (drainFrames fs fuel buf).1.flatten ++ (drainFrames fs fuel buf).2 = buf := by
  intro fuel
  induction fuel with
  | zero => intro buf; simp [drainFrames]
  | succ n ih =>
    intro buf
    by_cases h : 0 < fs ∧ fs ≤ buf.length
    · rw [drainFrames, if_pos h]
      simp only [List.flatten_cons, List.append_assoc]
      rw [ih (buf.drop fs), List.take_append_drop]
    · rw [drainFrames, if_neg h]
      simp

/-- With enough fuel (the buffer length suffices) the drain loop leaves
strictly less than one frame behind. -/
theorem drainFrames_rest_short (fs : ℕ) (hfs : 0 < fs) :
    ∀ (fuel : ℕ) (buf : List ℕ), buf.length ≤ fuel →
      (drainFrames fs fuel buf).2.length < fs := by
  intro fuel
  induction fuel with
  | zero =>
    intro buf hb
    rw [drainFrames]
    show buf.length < fs
    omega
  | succ n ih =>
    intro buf hb
    by_cases h : 0 < fs ∧ fs ≤ buf.length
    · rw [drainFrames, if_pos h]
      exact ih (buf.drop fs) (by simp; omega)
    · rw [drainFrames, if_neg h]
      show buf.length < fs
      push_neg at h
      have := h hfs
      omega

/-- Claim C5: the engine emits each binary frame as exactly `nx·ny·4` bytes
(`fwrite` of `nx·ny` 4-byte floats), the relay's frame size from the header
is that same number, and the relay's reassembly loop forwards the byte
stream only in whole frames of exactly that size — never split, never
merged, preserving every byte in order with less than one frame retained. -/
theorem frame_protocol_spec (nx ny fs : ℕ) (buf chunk : List ℕ) (hfs : 0 < fs) :
    engine_frame_bytes nx ny = nx * ny * 4
    ∧ relay_frame_size nx ny = engine_frame_bytes nx ny
    ∧ (∀ f ∈ (onData fs buf chunk).1, f.length = fs)
    ∧ (onData fs buf chunk).1.flatten ++ (onData fs buf chunk).2 = buf ++ chunk
    ∧ (onData fs buf chunk).2.length < fs := by
  refine ⟨by unfold engine_frame_bytes; ring,
    by unfold relay_frame_size engine_frame_bytes; ring, ?_, ?_, ?_⟩
  · rw [onData, if_neg (by omega)]
    exact drainFrames_sizes fs _ _
  · rw [onData, if_neg (by omega)]
    exact drainFrames_join fs _ _
  · rw [onData, if_neg (by omega)]
    exact drainFrames_rest_short fs hfs _ _ (le_refl _)

/-- Witness for C5: frame size 4, buffered bytes `[1,2]`, incoming chunk
`[3,4,5,6,7]` — exactly one whole frame `[1,2,3,4]` is forwarded and
`[5,6,7]` is retained. -/
theorem frame_protocol_spec_witness :
    (onData 4 [1, 2] [3, 4, 5, 6, 7]).1 = [[1, 2, 3, 4]]
    ∧ (onData 4 [1, 2] [3, 4, 5, 6, 7]).1.flatten ++ (onData 4 [1, 2] [3, 4, 5, 6, 7]).2
        = [1, 2] ++ [3, 4, 5, 6, 7]
    ∧ (onData 4 [1, 2] [3, 4, 5, 6, 7]).2.length < 4 :=
  ⟨by decide,
   (frame_protocol_spec 1 1 4 [1, 2] [3, 4, 5, 6, 7] (by decide)).2.2.2.1,
   (frame_protocol_spec 1 1 4 [1, 2] [3, 4, 5, 6, 7] (by decide)).2.2.2.2⟩

/-- Counterexample to claim C7 as stated: after a start command immediately
followed by a second start command, the session is at a reachable state in
which the first engine process has only been sent the termination signal
(`kill()` returns without waiting) while the second is already running —
two live engine processes for one session, the prior one not fully
terminated before the new launch. -/
theorem double_start_two_live :
    live (runRelay [RelayEv.start, RelayEv.start]) 0
    ∧ live (runRelay [RelayEv.start, RelayEv.start]) 1
    ∧ (0 : ℕ) ≠ 1 := by decide

/-- Claim C7 (amended): a start command issued while an engine process is
tracked as active sends the termination signal to that prior process and
stops tracking it strictly before the new process is launched; the relay
then tracks only the new running process — but the prior process has merely
been signaled, not necessarily reaped, when the new one starts. -/
theorem startEngine_signals_prior (s : RelayState) (p : ℕ)
    (htr : s.tracked = some p) (hrun : s.status p = .running)
    (hne : p ≠ s.next) :
    (startEngine s).status p = .signaled
    ∧ (startEngine s).tracked = some s.next
    ∧ (startEngine s).status s.next = .running
    ∧ (startEngine s).tracked ≠ some p := by
  unfold startEngine spawnEngine stopEngine
  rw [htr]
  refine ⟨?_, ?_, ?_, ?_⟩
  · simp [hne, hrun]
  · rfl
  · simp
  · simp
    omega

/-- Witness for C7's amended property: issuing start in the state reached
by one previous start signals process 0 and launches process 1. -/
theorem startEngine_signals_prior_witness :
    (startEngine (runRelay [RelayEv.start])).status 0 = .signaled
    ∧ (startEngine (runRelay [RelayEv.start])).tracked
        = some (runRelay [RelayEv.start]).next
    ∧ (startEngine (runRelay [RelayEv.start])).status (runRelay [RelayEv.start]).next
        = .running
    ∧ (startEngine (runRelay [RelayEv.start])).tracked ≠ some 0 :=
  startEngine_signals_prior (runRelay [RelayEv.start]) 0 (by decide) (by decide)
    (by decide)

/-- Claim C1: for every interior cell `(i, j)` — `0 < i < nx−1`,
`0 < j < ny−1` — one invocation of the time-stepping kernel stores
`tanh(0.9·v)`, where `v` is the provisional value
`2·current − previous + coef·laplacian − alpha·dt·laplacian_of_time_derivative`
with `coef = (c·dt/dx)²`, multiplicatively attenuated by
`max 0 (1 − 0.03·mask)` whenever the cell's sponge mask is positive; cells
in the boundary ring of width 1 are never written by the kernel. -/
theorem step_kernel_spec (u0 u1 u2 c sponge : ℕ → ℝ) (nx ny : ℕ)
    (dt dx alpha : ℝ) (i j : ℕ) :
    (0 < i → 0 < j → i < nx - 1 → j < ny - 1 →
      step_kernel u0 u1 u2 c sponge nx ny dt dx alpha i j
        = Real.tanh (0.9 *
            ((if 0 < sponge (j * nx + i) then
                max 0 (1 - 0.03 * sponge (j * nx + i)) else 1) *
              (2 * u1 (j * nx + i) - u0 (j * nx + i)
                + (c (j * nx + i) * dt / dx) ^ 2 *
                  (u1 (j * nx + i - 1) + u1 (j * nx + i + 1)
                    + u1 (j * nx + i - nx) + u1 (j * nx + i + nx)
                    - 4 * u1 (j * nx + i))
                - alpha * dt *
                  ((u1 (j * nx + i - 1) - u0 (j * nx + i - 1)) / dt
                    + (u1 (j * nx + i + 1) - u0 (j * nx + i + 1)) / dt
                    + (u1 (j * nx + i - nx) - u0 (j * nx + i - nx)) / dt
                    + (u1 (j * nx + i + nx) - u0 (j * nx + i + nx)) / dt
                    - 4 * ((u1 (j * nx + i) - u0 (j * nx + i)) / dt))))))
    ∧ ((i = 0 ∨ j = 0 ∨ nx - 1 ≤ i ∨ ny - 1 ≤ j) →
      step_kernel u0 u1 u2 c sponge nx ny dt dx alpha i j = u2 (j * nx + i)) := by
  constructor
  · intro hi hj hinx hjny
    have hguard : ¬(i = 0 ∨ j = 0 ∨ nx - 1 ≤ i ∨ ny - 1 ≤ j) := by omega
    simp only [step_kernel, if_neg hguard]
    by_cases hsp : 0 < sponge (j * nx + i)
    · rw [if_pos hsp, if_pos hsp]
      have hmax : (if (1 : ℝ) - 0.03 * sponge (j * nx + i) < 0 then (0 : ℝ)
            else 1 - 0.03 * sponge (j * nx + i))
          = max 0 (1 - 0.03 * sponge (j * nx + i)) := by
        rcases lt_or_le ((1 : ℝ) - 0.03 * sponge (j * nx + i)) 0 with h | h
        · rw [if_pos h, max_eq_left (le_of_lt h)]
        · rw [if_neg (not_lt.mpr h), max_eq_right h]
      rw [hmax]
      congr 1
      ring
    · rw [if_neg hsp, if_neg hsp]
      congr 1
      ring
  · intro h
    simp only [step_kernel, if_pos h]

/-- Witness for C1 on a 3×3 grid of zero buffers: the single interior cell
stores `tanh 0` and a boundary cell keeps its old target value. -/
theorem step_kernel_spec_witness :
    step_kernel (fun _ => 0) (fun _ => 0) (fun _ => 0) (fun _ => 1) (fun _ => 0)
        3 3 1 1 1 1 1 = Real.tanh 0
    ∧ step_kernel (fun _ => 0) (fun _ => 0) (fun _ => 0) (fun _ => 1) (fun _ => 0)
        3 3 1 1 1 0 1 = 0 := by
  constructor
  · have h := (step_kernel_spec (fun _ => 0) (fun _ => 0) (fun _ => 0) (fun _ => 1)
      (fun _ => 0) 3 3 1 1 1 1 1).1 (by decide) (by decide) (by decide) (by decide)
    rw [h]
    norm_num
  · exact (step_kernel_spec (fun _ => 0) (fun _ => 0) (fun _ => 0) (fun _ => 1)
      (fun _ => 0) 3 3 1 1 1 0 1).2 (Or.inl rfl)

/-- The step kernel maps all-zero buffers to zero at every thread. -/
theorem step_kernel_zero (c sp : ℕ → ℝ) (nx ny : ℕ) (dt dx alpha : ℝ)
    (i j : ℕ) :
    step_kernel (fun _ => 0) (fun _ => 0) (fun _ => 0) c sp nx ny dt dx alpha i j
      = 0 := by
  simp only [step_kernel]
  split_ifs <;> simp [Real.tanh_zero]

/-- Injecting a zero-valued source leaves a zero cell at zero. -/
theorem add_source_zero (u : ℕ → ℝ) (nx ny : ℕ) (sx sy : Int) (k : ℕ)
    (hu : u k = 0) : add_source u nx ny sx sy 0 k = 0 := by
  simp only [add_source]
  split_ifs <;> simp [hu]

/-- One engine loop iteration with zero source amplitude preserves the
all-zero buffer state. -/
theorem engine_step_zero (nx ny : ℕ) (dt dx alpha : ℝ) (c sp : ℕ → ℝ)
    (f0 : ℝ) (sx sy : Int) (s : SimState)
    (h0 : ∀ k, s.u0 k = 0) (h1 : ∀ k, s.u1 k = 0) (h2 : ∀ k, s.u2 k = 0) :
    (∀ k, (engine_step nx ny dt dx alpha c sp 0 f0 sx sy s).u0 k = 0)
    ∧ (∀ k, (engine_step nx ny dt dx alpha c sp 0 f0 sx sy s).u1 k = 0)
    ∧ (∀ k, (engine_step nx ny dt dx alpha c sp 0 f0 sx sy s).u2 k = 0) := by
  have e0 : s.u0 = fun _ => 0 := funext h0
  have e1 : s.u1 = fun _ => 0 := funext h1
  have e2 : s.u2 = fun _ => 0 := funext h2
  refine ⟨fun k => h1 k, fun k => ?_, fun k => h0 k⟩
  simp only [engine_step, e0, e1, e2, zero_mul]
  exact add_source_zero _ nx ny sx sy k (step_kernel_zero c sp nx ny dt dx alpha _ _)

/-- Claim C4: starting from all-zero field buffers with source amplitude 0,
after every number of steps all three buffers are identically zero, and the
energy — the sum of squares over any cell range — is exactly 0, an exact
identity of the update rule, not an approximation. -/
theorem zero_amp_zero_field (nx ny : ℕ) (dt dx alpha : ℝ) (c sp : ℕ → ℝ)
    (amp f0 : ℝ) (sx sy : Int) (hamp : amp = 0) (n : ℕ) :
    (∀ k, (engine_run nx ny dt dx alpha c sp amp f0 sx sy n).u0 k = 0)
    ∧ (∀ k, (engine_run nx ny dt dx alpha c sp amp f0 sx sy n).u1 k = 0)
    ∧ (∀ k, (engine_run nx ny dt dx alpha c sp amp f0 sx sy n).u2 k = 0)
    ∧ (∀ N, sum_energy (engine_run nx ny dt dx alpha c sp amp f0 sx sy n).u1 N = 0) := by
  subst hamp
  induction n with
  | zero =>
    exact ⟨fun k => rfl, fun k => rfl, fun k => rfl, fun N => by simp [sum_energy, engine_run]⟩
  | succ m ih =>
    obtain ⟨h0, h1, h2, _⟩ := ih
    have hs := engine_step_zero nx ny dt dx alpha c sp f0 sx sy
      (engine_run nx ny dt dx alpha c sp 0 f0 sx sy m) h0 h1 h2
    simp only [engine_run]
    exact ⟨hs.1, hs.2.1, hs.2.2, fun N => by simp [sum_energy, hs.2.1]⟩

/-- Witness for C4: a 4×4 zero-amplitude run after 3 steps has a zero cell
and zero total energy over all 16 cells. -/
theorem zero_amp_zero_field_witness :
    (engine_run 4 4 1 1 0.002 (fun _ => 3000) (fun _ => 0) 0 8 2 2 3).u1 5 = 0
    ∧ sum_energy (engine_run 4 4 1 1 0.002 (fun _ => 3000) (fun _ => 0) 0 8 2 2 3).u1 16
        = 0 :=
  ⟨(zero_amp_zero_field 4 4 1 1 0.002 (fun _ => 3000) (fun _ => 0) 0 8 2 2 rfl 3).2.1 5,
   (zero_amp_zero_field 4 4 1 1 0.002 (fun _ => 3000) (fun _ => 0) 0 8 2 2 rfl 3).2.2.2 16⟩
